import Mathlib

/-!
# Verification of pico-celery (pico-ioc / Celery integration shim)

Shallow embedding of the `pico_celery` package:

* `decorators.py` : the `task` decorator for worker-side async methods.
* `client.py`     : the `send_task` decorator, the `celery` class decorator
                    and `CeleryClientInterceptor.invoke`.
* `registrar.py`  : `PicoTaskRegistrar.register_tasks` and the synchronous
                    task wrapper `sync_task_executor` / `run_task_logic`.

Python objects are modelled as explicit records; attribute attachment is a
functional update; exceptions are `Except PyErr`; the Celery application is
explicit state (a log of `send_task` calls, a log of registration calls and
the name-to-callable task table with dict overwrite semantics).
-/

/-- Python-style values used for task arguments and option values. -/
inductive Val where
  | int : Int → Val
  | str : String → Val
  | bool : Bool → Val
  | none : Val
  deriving DecidableEq, Repr

/-- The metadata dict `{"name": name, "options": options}` attached by the
`task` and `send_task` decorators. -/
structure TaskMeta where
  name : String
  options : List (String × Val)
  deriving DecidableEq, Repr

/-- Exceptions that the embedded code can raise. -/
inductive PyErr where
  | typeError : String → PyErr
  | valueError : String → PyErr
  | attributeError : String → PyErr
  | userError : String → PyErr
  deriving DecidableEq, Repr

/-- A component instance resolved from the container.  `freshId` is the
value of the container resolution counter at the moment the instance was
created, so distinct resolutions yield distinct instances. -/
structure Instance where
  clsName : String
  freshId : Nat
  deriving DecidableEq, Repr

/-- A Python function object: its `__name__`, the results of the
`inspect.isfunction` / `inspect.iscoroutinefunction` checks, the two
pico-celery metadata attributes, the interception wiring flag set by the
`celery` class decorator, and its body (taking the bound instance and the
call arguments, possibly raising). -/
structure PyFunction where
  fname : String
  isFunction : Bool
  isCoroutineFunction : Bool
  senderMeta : Option TaskMeta
  taskMeta : Option TaskMeta
  intercepted : Bool
  body : Instance → List Val → List (String × Val) → Except PyErr Val

/-- A Python class: its `__name__` and its function members as seen by
`inspect.getmembers(cls, inspect.isfunction)` / `getattr`. -/
structure PyClass where
  name : String
  methods : List (String × PyFunction)

/-- One `celery_app.send_task(task_name, args=..., kwargs=..., **options)`
call as recorded by the application. -/
structure SendTaskCall where
  taskName : String
  args : List Val
  kwargs : List (String × Val)
  options : List (String × Val)
  deriving DecidableEq, Repr

/-- One `celery_app.task(name=task_name, **options)(wrapper)` registration
call; the wrapper closure is identified by the owning class name and the
method name it closes over. -/
structure RegCall where
  taskName : String
  options : List (String × Val)
  clsName : String
  methodName : String
  deriving DecidableEq, Repr

/-- The observable state of the Celery application: the log of submitted
tasks, the log of registration calls, and the name-to-callable task table. -/
structure CeleryAppState where
  sent : List SendTaskCall
  regCalls : List RegCall
  tasks : List (String × RegCall)
  deriving DecidableEq, Repr

deriving instance DecidableEq for Except

/-- Result of an intercepted method invocation: an `AsyncResult` handle
returned by `send_task`, or whatever the rest of the chain produced. -/
inductive InvokeResult where
  | asyncResult : SendTaskCall → InvokeResult
  | plain : Except PyErr Val → InvokeResult
  deriving DecidableEq, Repr

/-- `celery_app.send_task`: records the call and returns its handle. -/
def CeleryAppState.send_task (app : CeleryAppState) (taskName : String)
    (args : List Val) (kwargs : List (String × Val))
    (options : List (String × Val)) : InvokeResult × CeleryAppState :=
  let c : SendTaskCall := ⟨taskName, args, kwargs, options⟩
  (InvokeResult.asyncResult c, { app with sent := app.sent ++ [c] })

/-- Dict-update on the task table: replace the entry for an existing key in
place, otherwise append (Python `dict` semantics of `app.tasks[name] = t`). -/
def insertTask : List (String × RegCall) → String → RegCall → List (String × RegCall)
  | [], n, e => [(n, e)]
  | (k, v) :: rest, n, e =>
      if k == n then (k, e) :: rest else (k, v) :: insertTask rest n e

/-- Lookup in the task table by task name (Python `app.tasks[name]`). -/
def lookupTask : List (String × RegCall) → String → Option RegCall
  | [], _ => none
  | (k, v) :: rest, n => if k == n then some v else lookupTask rest n

/-- `celery_app.task(name=..., **options)(wrapper)`: records the
registration call and updates the task table. -/
def CeleryAppState.registerTask (app : CeleryAppState) (c : RegCall) : CeleryAppState :=
  { app with
    regCalls := app.regCalls ++ [c],
    tasks := insertTask app.tasks c.taskName c }

/-! ## decorators.py -/

/-- `task(name, **celery_options)` applied to `func`
(`decorators.py`): raise `TypeError` unless `func` is a coroutine
function, otherwise attach `_pico_celery_method_meta` and return the same
function object. -/
def task (name : String) (celery_options : List (String × Val))
    (func : PyFunction) : Except PyErr PyFunction :=
  if func.isCoroutineFunction then
    Except.ok { func with taskMeta := some ⟨name, celery_options⟩ }
  else
    Except.error (PyErr.typeError
      ("@task decorator can only be applied to async methods, got: " ++ func.fname))

/-! ## client.py -/

/-- `send_task(name, **celery_options)` applied to `func` (`client.py`):
raise `TypeError` unless `func` is a function or method, otherwise attach
`_pico_celery_sender_meta` and return the same function object. -/
def send_task (name : String) (celery_options : List (String × Val))
    (func : PyFunction) : Except PyErr PyFunction :=
  if func.isFunction then
    Except.ok { func with senderMeta := some ⟨name, celery_options⟩ }
  else
    Except.error (PyErr.typeError ("send_task can only decorate methods or functions"))

/-- The wiring loop of the `celery` class decorator: every method carrying
sender metadata is replaced by its `intercepted_by(CeleryClientInterceptor)`
wrapper. -/
def wire_interception (c : PyClass) : PyClass :=
  { c with methods := c.methods.map (fun p =>
      if p.2.senderMeta.isSome then (p.1, { p.2 with intercepted := true }) else p) }

/-- The `celery` class decorator (`client.py`): scan the class members for
`@send_task` and `@task` metadata, raise `ValueError` naming the class when
neither is present, wire the interceptor onto sender methods, and register
the class as a component. -/
def celery (c : PyClass) : Except PyErr PyClass :=
  let has_send_tasks := c.methods.any (fun p => p.2.senderMeta.isSome)
  let has_worker_tasks := c.methods.any (fun p => p.2.taskMeta.isSome)
  if !has_send_tasks && !has_worker_tasks then
    Except.error (PyErr.valueError ("No @send_task or @task methods found on " ++ c.name))
  else
    Except.ok (if has_send_tasks then wire_interception c else c)

/-- The interception context (`MethodCtx`): owning class, method name,
positional arguments, keyword arguments. -/
structure MethodCtx where
  cls : PyClass
  name : String
  args : List Val
  kwargs : List (String × Val)

/-- `CeleryClientInterceptor.invoke` (`client.py`): read the sender
metadata from `getattr(ctx.cls, ctx.name)` (an `AttributeError` leaves
`meta = None`); without metadata delegate to `call_next`, with metadata
call `celery_app.send_task(task_name, args=ctx.args, kwargs=ctx.kwargs,
**options)` and return its result. -/
def CeleryClientInterceptor.invoke (app : CeleryAppState) (ctx : MethodCtx)
    (call_next : MethodCtx → CeleryAppState → InvokeResult × CeleryAppState) :
    InvokeResult × CeleryAppState :=
  let meta : Option TaskMeta :=
    match ctx.cls.methods.lookup ctx.name with
    | some f => f.senderMeta
    | none => none
  match meta with
  | none => call_next ctx app
  | some m => app.send_task m.name ctx.args ctx.kwargs m.options

/-! ## registrar.py : the synchronous task wrapper -/

/-- The container-side state visible to the wrapper: a resolution counter
counting `container.aget` calls.  Each call produces the instance tagged
with the current counter value, so instances from distinct calls differ. -/
structure ContainerState where
  resolveCount : Nat
  deriving DecidableEq, Repr

/-- How the container behaves when asked to resolve a class: `resolveFail
clsName k` tells whether the k-th resolution attempt of that class raises,
and with which exception.  This is the external pico-ioc collaborator. -/
structure ResolveEnv where
  resolveFail : String → Nat → Option PyErr

/-- `await container.aget(component_cls)`: either raise the failure the
environment prescribes, or produce a fresh instance; either way one
resolution attempt is consumed. -/
def PicoContainer.aget (env : ResolveEnv) (cls : PyClass) (st : ContainerState) :
    Except PyErr Instance × ContainerState :=
  match env.resolveFail cls.name st.resolveCount with
  | some e => (Except.error e, ⟨st.resolveCount + 1⟩)
  | none => (Except.ok ⟨cls.name, st.resolveCount⟩, ⟨st.resolveCount + 1⟩)

/-- An asynchronous routine: a state-passing computation producing a value
or an exception.  Suspension points are abstracted away; only the result
and the container-state effects are modelled. -/
abbrev AsyncRoutine := ContainerState → Except PyErr Val × ContainerState

/-- `run_task_logic` (`registrar.py`): resolve a fresh component instance,
look the method up on it, invoke it with the call-time arguments,
returning its result or propagating its failure. -/
def run_task_logic (env : ResolveEnv) (component_cls : PyClass)
    (method_name : String) (args : List Val) (kwargs : List (String × Val)) :
    AsyncRoutine := fun st =>
  match PicoContainer.aget env component_cls st with
  | (Except.error e, st2) => (Except.error e, st2)
  | (Except.ok component_instance, st2) =>
    match component_cls.methods.lookup method_name with
    | none => (Except.error (PyErr.attributeError method_name), st2)
    | some task_method => (task_method.body component_instance args kwargs, st2)

/-- `asyncio.run(coro)`: run the routine to completion on a newly created
event loop bound to the calling thread, returning its result or re-raising
its exception. -/
def asyncioRun (coro : AsyncRoutine) : AsyncRoutine := coro

/-- A `concurrent.futures` future holding the eventual outcome of a
submitted call. -/
structure PoolFuture where
  outcome : AsyncRoutine

/-- `pool.submit(f, coro)`: schedule `f coro` on a worker thread of the
pool. -/
def ThreadPoolExecutor.submit (f : AsyncRoutine → AsyncRoutine)
    (coro : AsyncRoutine) : PoolFuture :=
  ⟨f coro⟩

/-- `future.result()`: block until the submitted call finishes, then return
its value or re-raise its exception. -/
def PoolFuture.result (fut : PoolFuture) : AsyncRoutine := fut.outcome

/-- `sync_task_executor` (`registrar.py`): the synchronous wrapper
registered with Celery.  `loopRunning` is the outcome of the
`asyncio.get_running_loop()` probe (`False` when it raised `RuntimeError`
or the loop is not running).  With a running loop the inner routine is
submitted to a fresh `ThreadPoolExecutor` and the calling thread blocks on
the future; otherwise the routine is run directly with `asyncio.run`. -/
def sync_task_executor (env : ResolveEnv) (component_cls : PyClass)
    (method_name : String) (loopRunning : Bool)
    (args : List Val) (kwargs : List (String × Val)) :
    AsyncRoutine := fun st =>
  let coro : AsyncRoutine := run_task_logic env component_cls method_name args kwargs
  if loopRunning then
    (ThreadPoolExecutor.submit asyncioRun coro).result st
  else
    asyncioRun coro st

/-! ## registrar.py : task discovery and registration -/

/-- The `concrete_class` attribute of one registry entry: either an actual
class or some non-class placeholder value. -/
inductive ConcreteEntry where
  | cls : PyClass → ConcreteEntry
  | notClass : Val → ConcreteEntry

/-- One entry of the locator metadata map (`md`); `concrete_class` may be
missing (`getattr(md, "concrete_class", None)` then yields `None`). -/
structure ComponentMD where
  concrete_class : Option ConcreteEntry

/-- The container locator (`container._locator`) with its `_metadata` map,
viewed through `metadata_map.values()`. -/
structure Locator where
  metadataVals : List ComponentMD

/-- The container as seen by the registrar: `_locator` may be absent. -/
structure PicoContainerReg where
  locator : Option Locator

/-- Does the entry's `concrete_class` pass the `inspect.isclass` check? -/
def isClassEntry (md : ComponentMD) : Bool :=
  match md.concrete_class with
  | some (ConcreteEntry.cls _) => true
  | _ => false

/-- The inner loop of `register_tasks` for one component class: for each
function member carrying `_pico_celery_method_meta`, register the wrapper
under the declared name and options. -/
def registerClassTasks (cls : PyClass) (app : CeleryAppState) : CeleryAppState :=
  cls.methods.foldl (fun a p =>
    match p.2.taskMeta with
    | some meta => a.registerTask ⟨meta.name, meta.options, cls.name, p.1⟩
    | none => a) app

/-- `PicoTaskRegistrar.register_tasks` (`registrar.py`): return silently if
the locator is unavailable; otherwise walk every metadata entry, skip those
whose `concrete_class` is not a class, and register every task-marked
method of the remaining classes. -/
def register_tasks (container : PicoContainerReg) (app : CeleryAppState) :
    CeleryAppState :=
  match container.locator with
  | none => app
  | some locator =>
    locator.metadataVals.foldl (fun a md =>
      match md.concrete_class with
      | some (ConcreteEntry.cls component_cls) => registerClassTasks component_cls a
      | _ => a) app

/-- The registration calls one class contributes, in discovery order. -/
def classCalls (cls : PyClass) : List RegCall :=
  cls.methods.filterMap (fun p =>
    p.2.taskMeta.map (fun meta => ⟨meta.name, meta.options, cls.name, p.1⟩))

/-- The registration calls one registry entry contributes. -/
def entryCalls (md : ComponentMD) : List RegCall :=
  match md.concrete_class with
  | some (ConcreteEntry.cls c) => classCalls c
  | _ => []

/-- All registration calls one registrar run issues, in order. -/
def discoveredCalls (container : PicoContainerReg) : List RegCall :=
  match container.locator with
  | none => []
  | some locator => (locator.metadataVals.map entryCalls).flatten

/-- Replay a list of registration calls against the application. -/
def applyCalls (app : CeleryAppState) (calls : List RegCall) : CeleryAppState :=
  calls.foldl (fun a c => a.registerTask c) app

/-- The last registration call in `calls` that declares task name `n`. -/
def lastNamed (n : String) : List RegCall → Option RegCall
  | [] => none
  | c :: cs =>
      match lastNamed n cs with
      | some d => some d
      | none => if c.taskName == n then some c else none

/-! ## Concrete fixtures used by witness theorems -/

/-- A sample async task method: doubles its first integer argument. -/
def exMultiplyFn : PyFunction :=
  { fname := "multiply", isFunction := true, isCoroutineFunction := true,
    senderMeta := none, taskMeta := none, intercepted := false,
    body := fun _ args _ =>
      match args with
      | [Val.int v] => Except.ok (Val.int (v * 2))
      | _ => Except.error (PyErr.typeError ("bad args")) }

/-- A sample plain (non-async) method with no pico-celery metadata. -/
def exPlainFn : PyFunction :=
  { fname := "helper", isFunction := true, isCoroutineFunction := false,
    senderMeta := none, taskMeta := none, intercepted := false,
    body := fun _ _ _ => Except.ok (Val.str ("helper ran")) }

/-- A sample sender method marked `send_task(name="tasks.notify", queue="high")`. -/
def exNotifyFn : PyFunction :=
  { fname := "notify", isFunction := true, isCoroutineFunction := false,
    senderMeta := some ⟨"tasks.notify", [("queue", Val.str ("high"))]⟩,
    taskMeta := none, intercepted := false,
    body := fun _ _ _ => Except.error (PyErr.userError ("body must never run")) }

/-- A sample client class with one sender method and one plain method. -/
def exClientCls : PyClass :=
  ⟨"NotificationClient", [("helper", exPlainFn), ("notify", exNotifyFn)]⟩

/-- A sample worker class owning the async `multiply` task method, marked
with task metadata under the name `sample.task`. -/
def exTaskCls : PyClass :=
  ⟨"TaskService",
   [("multiply", { exMultiplyFn with taskMeta := some ⟨"sample.task", []⟩ })]⟩

/-- A class with no marked methods at all. -/
def exEmptyCls : PyClass := ⟨"EmptyClient", [("helper", exPlainFn)]⟩

/-- A Celery application in its initial state. -/
def exApp0 : CeleryAppState := ⟨[], [], []⟩

/-- A concrete continuation for the interceptor chain. -/
def exCallNext : MethodCtx → CeleryAppState → InvokeResult × CeleryAppState :=
  fun _ app => (InvokeResult.plain (Except.ok Val.none), app)

/-- A container environment whose resolutions always succeed. -/
def exEnvOk : ResolveEnv := ⟨fun _ _ => none⟩

/-- A container environment whose resolutions always raise. -/
def exEnvFail : ResolveEnv := ⟨fun _ _ => some (PyErr.userError ("resolution failed"))⟩

/-! ## Claims about the decorators -/

/-- C4: applying `task(name, **options)` to a function raises a
`TypeError` exactly when the target is not a coroutine function; on an
async target it attaches task metadata `{name, options}` and returns the
same function object otherwise unchanged. -/
theorem task_decorator_spec (name : String) (opts : List (String × Val))
    (f : PyFunction) :
    (f.isCoroutineFunction = false →
      task name opts f = Except.error (PyErr.typeError
        ("@task decorator can only be applied to async methods, got: " ++ f.fname))) ∧
    (f.isCoroutineFunction = true →
      task name opts f = Except.ok { f with taskMeta := some ⟨name, opts⟩ }) := by
  constructor <;> intro h <;> simp [task, h]

theorem task_decorator_spec_witness :
    task "sample.task" [] exPlainFn = Except.error (PyErr.typeError
      ("@task decorator can only be applied to async methods, got: helper")) ∧
    task "sample.task" [] exMultiplyFn =
      Except.ok { exMultiplyFn with taskMeta := some ⟨"sample.task", []⟩ } :=
  ⟨(task_decorator_spec "sample.task" [] exPlainFn).1 rfl,
   (task_decorator_spec "sample.task" [] exMultiplyFn).2 rfl⟩

/-- C5: decorating a class with `celery` raises a `ValueError` naming the
class exactly when no method carries sender or task metadata; with at
least one marked method decoration succeeds. -/
theorem celery_requires_marked_methods (c : PyClass) :
    ((∀ p ∈ c.methods, p.2.senderMeta = none ∧ p.2.taskMeta = none) →
      celery c = Except.error (PyErr.valueError
        ("No @send_task or @task methods found on " ++ c.name))) ∧
    ((∃ p ∈ c.methods, p.2.senderMeta.isSome ∨ p.2.taskMeta.isSome) →
      ∃ c2, celery c = Except.ok c2) := by
  constructor
  · intro h
    have hs : c.methods.any (fun p => p.2.senderMeta.isSome) = false := by
      simp only [List.any_eq_false]
      intro p hp
      simp [(h p hp).1]
    have ht : c.methods.any (fun p => p.2.taskMeta.isSome) = false := by
      simp only [List.any_eq_false]
      intro p hp
      simp [(h p hp).2]
    simp [celery, hs, ht]
  · rintro ⟨p, hp, hor⟩
    have hcond : (c.methods.any (fun p => p.2.senderMeta.isSome)) = true ∨
        (c.methods.any (fun p => p.2.taskMeta.isSome)) = true := by
      rcases hor with h1 | h1
      · exact Or.inl (List.any_eq_true.mpr ⟨p, hp, h1⟩)
      · exact Or.inr (List.any_eq_true.mpr ⟨p, hp, h1⟩)
    rcases hcond with h1 | h1
    · exact ⟨wire_interception c, by simp [celery, h1]⟩
    · cases hs : c.methods.any (fun p => p.2.senderMeta.isSome)
      · exact ⟨c, by simp [celery, hs, h1]⟩
      · exact ⟨wire_interception c, by simp [celery, hs, h1]⟩

theorem celery_requires_marked_methods_witness :
    celery exEmptyCls = Except.error (PyErr.valueError
      ("No @send_task or @task methods found on EmptyClient")) ∧
    ∃ c2, celery exClientCls = Except.ok c2 :=
  ⟨(celery_requires_marked_methods exEmptyCls).1 (by decide),
   (celery_requires_marked_methods exClientCls).2
     ⟨("notify", exNotifyFn), by simp [exClientCls], Or.inl rfl⟩⟩

/-! ## Claims about the client interceptor -/

/-- C1: when the class+name lookup yields a method carrying sender
metadata, `invoke` performs exactly one `send_task` with the declared task
name, the context's args and kwargs and the metadata options, returns that
call's handle, and the continuation is never used (the result is the same
for every `call_next`). -/
theorem invoke_sender_submits (app : CeleryAppState) (ctx : MethodCtx)
    (f : PyFunction) (m : TaskMeta)
    (hlook : ctx.cls.methods.lookup ctx.name = some f)
    (hmeta : f.senderMeta = some m)
    (call_next : MethodCtx → CeleryAppState → InvokeResult × CeleryAppState) :
    CeleryClientInterceptor.invoke app ctx call_next =
      (InvokeResult.asyncResult ⟨m.name, ctx.args, ctx.kwargs, m.options⟩,
       { app with sent := app.sent ++ [⟨m.name, ctx.args, ctx.kwargs, m.options⟩] }) := by
  simp [CeleryClientInterceptor.invoke, hlook, hmeta, CeleryAppState.send_task]

theorem invoke_sender_submits_witness :
    CeleryClientInterceptor.invoke exApp0
      ⟨exClientCls, "notify", [Val.int 7, Val.str ("hi")], []⟩ exCallNext =
      (InvokeResult.asyncResult
        ⟨"tasks.notify", [Val.int 7, Val.str ("hi")], [], [("queue", Val.str ("high"))]⟩,
       ⟨[⟨"tasks.notify", [Val.int 7, Val.str ("hi")], [], [("queue", Val.str ("high"))]⟩],
        [], []⟩) :=
  invoke_sender_submits exApp0
    ⟨exClientCls, "notify", [Val.int 7, Val.str ("hi")], []⟩
    exNotifyFn ⟨"tasks.notify", [("queue", Val.str ("high"))]⟩ rfl rfl exCallNext

/-- C6: when the lookup fails or the method carries no sender metadata,
`invoke` returns exactly the continuation applied to the unchanged context
and application state. -/
theorem invoke_passthrough (app : CeleryAppState) (ctx : MethodCtx)
    (call_next : MethodCtx → CeleryAppState → InvokeResult × CeleryAppState)
    (h : ctx.cls.methods.lookup ctx.name = none ∨
         ∃ f, ctx.cls.methods.lookup ctx.name = some f ∧ f.senderMeta = none) :
    CeleryClientInterceptor.invoke app ctx call_next = call_next ctx app := by
  rcases h with h1 | ⟨f, h1, h2⟩
  · simp [CeleryClientInterceptor.invoke, h1]
  · simp [CeleryClientInterceptor.invoke, h1, h2]

theorem invoke_passthrough_witness :
    CeleryClientInterceptor.invoke exApp0
      ⟨exClientCls, "helper", [], []⟩ exCallNext =
      (InvokeResult.plain (Except.ok Val.none), exApp0) :=
  invoke_passthrough exApp0 ⟨exClientCls, "helper", [], []⟩ exCallNext
    (Or.inr ⟨exPlainFn, rfl, rfl⟩)

/-! ## Claims about the synchronous task wrapper -/

/-- C3: for identical inputs, the thread-pool branch (active event loop)
and the direct `asyncio.run` branch (no active loop) of the wrapper
produce the same result and the same container-state effects. -/
theorem sync_task_executor_dual_path (env : ResolveEnv) (cls : PyClass)
    (mn : String) (args : List Val) (kwargs : List (String × Val))
    (st : ContainerState) :
    sync_task_executor env cls mn true args kwargs st =
      sync_task_executor env cls mn false args kwargs st := rfl

/-- C8: each wrapper invocation resolves a fresh component instance (tagged
with the current resolution counter) before looking up and invoking the
named method on it, and the counter strictly increases, so no two
invocations ever share an instance: no pooling or caching. -/
theorem sync_task_executor_fresh_instance (env : ResolveEnv) (cls : PyClass)
    (mn : String) (f : PyFunction) (loopRunning : Bool) (args : List Val)
    (kwargs : List (String × Val)) (st : ContainerState)
    (hres : env.resolveFail cls.name st.resolveCount = none)
    (hm : cls.methods.lookup mn = some f) :
    sync_task_executor env cls mn loopRunning args kwargs st =
      (f.body ⟨cls.name, st.resolveCount⟩ args kwargs, ⟨st.resolveCount + 1⟩) := by
  cases loopRunning <;>
    simp [sync_task_executor, asyncioRun, ThreadPoolExecutor.submit, PoolFuture.result,
      run_task_logic, PicoContainer.aget, hres, hm]

theorem sync_task_executor_fresh_instance_witness :
    sync_task_executor exEnvOk exTaskCls "multiply" false [Val.int 3] [] ⟨0⟩ =
      (Except.ok (Val.int 6), ⟨1⟩) :=
  sync_task_executor_fresh_instance exEnvOk exTaskCls "multiply"
    { exMultiplyFn with taskMeta := some ⟨"sample.task", []⟩ }
    false [Val.int 3] [] ⟨0⟩ rfl rfl

/-- C9: whenever the inner routine fails — during instance resolution or
method execution — the wrapper returns exactly that exception on either
branch: no retry, no suppression, no change of the error. -/
theorem sync_task_executor_propagates_errors (env : ResolveEnv) (cls : PyClass)
    (mn : String) (loopRunning : Bool) (args : List Val)
    (kwargs : List (String × Val)) (st : ContainerState) (e : PyErr)
    (h : (run_task_logic env cls mn args kwargs st).1 = Except.error e) :
    (sync_task_executor env cls mn loopRunning args kwargs st).1 = Except.error e := by
  cases loopRunning <;>
    simpa [sync_task_executor, asyncioRun, ThreadPoolExecutor.submit,
      PoolFuture.result] using h

theorem sync_task_executor_propagates_errors_witness :
    (sync_task_executor exEnvFail exTaskCls "multiply" true [Val.int 3] [] ⟨0⟩).1 =
      Except.error (PyErr.userError ("resolution failed")) :=
  sync_task_executor_propagates_errors exEnvFail exTaskCls "multiply" true
    [Val.int 3] [] ⟨0⟩ (PyErr.userError ("resolution failed")) rfl

/-! ## Registrar lemmas -/

/-- The per-class registration loop replays exactly the class's discovered
calls. -/
theorem foldl_registerStep_eq (cn : String) (l : List (String × PyFunction))
    (app : CeleryAppState) :
    l.foldl (fun a p =>
      match p.2.taskMeta with
      | some meta => a.registerTask ⟨meta.name, meta.options, cn, p.1⟩
      | none => a) app =
    applyCalls app (l.filterMap (fun p =>
      p.2.taskMeta.map (fun meta => (⟨meta.name, meta.options, cn, p.1⟩ : RegCall)))) := by
  induction l generalizing app with
  | nil => rfl
  | cons p ps ih =>
    cases h : p.2.taskMeta with
    | none => simp [List.foldl_cons, List.filterMap_cons, h, ih]
    | some meta => simp [List.foldl_cons, List.filterMap_cons, h, ih, applyCalls]

theorem registerClassTasks_eq (cls : PyClass) (app : CeleryAppState) :
    registerClassTasks cls app = applyCalls app (classCalls cls) :=
  foldl_registerStep_eq cls.name cls.methods app

theorem applyCalls_append (app : CeleryAppState) (xs ys : List RegCall) :
    applyCalls app (xs ++ ys) = applyCalls (applyCalls app xs) ys := by
  simp [applyCalls, List.foldl_append]

/-- The registry loop replays exactly the flattened discovered calls. -/
theorem foldl_entries_eq (mds : List ComponentMD) (app : CeleryAppState) :
    mds.foldl (fun a md =>
      match md.concrete_class with
      | some (ConcreteEntry.cls component_cls) => registerClassTasks component_cls a
      | _ => a) app =
    applyCalls app (mds.map entryCalls).flatten := by
  induction mds generalizing app with
  | nil => rfl
  | cons md mds ih =>
    have hstep : (match md.concrete_class with
        | some (ConcreteEntry.cls component_cls) => registerClassTasks component_cls app
        | _ => app) = applyCalls app (entryCalls md) := by
      cases hc : md.concrete_class with
      | none => simp [entryCalls, hc, applyCalls]
      | some ce =>
        cases ce with
        | cls c => simp [entryCalls, hc, registerClassTasks_eq]
        | notClass v => simp [entryCalls, hc, applyCalls]
    simp only [List.foldl_cons, List.map_cons, List.flatten_cons]
    rw [applyCalls_append, ← hstep]
    exact ih _

theorem register_tasks_eq (cont : PicoContainerReg) (app : CeleryAppState) :
    register_tasks cont app = applyCalls app (discoveredCalls cont) := by
  cases hc : cont.locator with
  | none =>
    simp only [register_tasks, discoveredCalls, hc]
    rfl
  | some loc =>
    simp only [register_tasks, discoveredCalls, hc]
    exact foldl_entries_eq loc.metadataVals app

theorem applyCalls_regCalls (app : CeleryAppState) (calls : List RegCall) :
    (applyCalls app calls).regCalls = app.regCalls ++ calls := by
  induction calls generalizing app with
  | nil => simp [applyCalls]
  | cons c cs ih =>
    have h1 : applyCalls app (c :: cs) = applyCalls (app.registerTask c) cs := rfl
    rw [h1, ih]
    simp [CeleryAppState.registerTask]

theorem lookupTask_insertTask (tbl : List (String × RegCall)) (n : String)
    (e : RegCall) (m : String) :
    lookupTask (insertTask tbl n e) m = if m = n then some e else lookupTask tbl m := by
  induction tbl with
  | nil =>
    by_cases h : m = n
    · subst h; simp [insertTask, lookupTask]
    · simp [insertTask, lookupTask, h, Ne.symm h]
  | cons kv rest ih =>
    obtain ⟨k, v⟩ := kv
    by_cases hk : k = n
    · subst hk
      by_cases hm : m = k
      · subst hm; simp [insertTask, lookupTask]
      · simp [insertTask, lookupTask, hm, Ne.symm hm]
    · by_cases hm : k = m
      · subst hm
        simp [insertTask, lookupTask, hk, Ne.symm hk]
      · simp [insertTask, lookupTask, hk, hm, ih]

theorem applyCalls_lookupTask (app : CeleryAppState) (calls : List RegCall)
    (n : String) :
    lookupTask (applyCalls app calls).tasks n =
      match lastNamed n calls with
      | some c => some c
      | none => lookupTask app.tasks n := by
  induction calls generalizing app with
  | nil => simp [applyCalls, lastNamed]
  | cons c cs ih =>
    have h1 : applyCalls app (c :: cs) = applyCalls (app.registerTask c) cs := rfl
    rw [h1, ih]
    cases hl : lastNamed n cs with
    | some d => simp [lastNamed, hl]
    | none =>
      simp only [lastNamed, hl]
      rw [show (app.registerTask c).tasks = insertTask app.tasks c.taskName c from rfl,
          lookupTask_insertTask]
      by_cases h : n = c.taskName
      · simp [h]
      · simp [h, Ne.symm h]

theorem lastNamed_isSome_of_mem (n : String) (c : RegCall) (calls : List RegCall)
    (hmem : c ∈ calls) (hn : c.taskName = n) :
    (lastNamed n calls).isSome = true := by
  induction calls with
  | nil => cases hmem
  | cons d ds ih =>
    rcases List.mem_cons.mp hmem with h | h
    · subst h
      cases hl : lastNamed n ds <;> simp [lastNamed, hl, hn]
    · have hds := ih h
      cases hl : lastNamed n ds
      · rw [hl] at hds; cases hds
      · simp [lastNamed, hl]

/-! ## Claims about the task registrar -/

/-- C2: every task-marked method of every class reachable through the
container registry ends up registered: the registrar issues a registration
call with the declared name and options for the owning (class, method)
pair, and a lookup of the declared name in the application's task table
succeeds afterwards. -/
theorem register_tasks_registers_all (cont : PicoContainerReg) (app : CeleryAppState)
    (loc : Locator) (md : ComponentMD) (cls : PyClass) (mn : String) (f : PyFunction)
    (n : String) (opts : List (String × Val))
    (hloc : cont.locator = some loc)
    (hmd : md ∈ loc.metadataVals)
    (hcls : md.concrete_class = some (ConcreteEntry.cls cls))
    (hmem : (mn, f) ∈ cls.methods)
    (hmeta : f.taskMeta = some ⟨n, opts⟩) :
    (⟨n, opts, cls.name, mn⟩ : RegCall) ∈ (register_tasks cont app).regCalls ∧
    (lookupTask (register_tasks cont app).tasks n).isSome = true := by
  have hcall : (⟨n, opts, cls.name, mn⟩ : RegCall) ∈ classCalls cls := by
    simp only [classCalls, List.mem_filterMap]
    exact ⟨(mn, f), hmem, by simp [hmeta]⟩
  have hdisc : (⟨n, opts, cls.name, mn⟩ : RegCall) ∈ discoveredCalls cont := by
    simp only [discoveredCalls]
    rw [hloc]
    simp only [List.mem_flatten]
    exact ⟨entryCalls md, List.mem_map.mpr ⟨md, hmd, rfl⟩,
      by simpa [entryCalls, hcls] using hcall⟩
  constructor
  · rw [register_tasks_eq, applyCalls_regCalls]
    exact List.mem_append_right _ hdisc
  · rw [register_tasks_eq, applyCalls_lookupTask]
    have hsome := lastNamed_isSome_of_mem n ⟨n, opts, cls.name, mn⟩
      (discoveredCalls cont) hdisc rfl
    cases hl : lastNamed n (discoveredCalls cont)
    · rw [hl] at hsome; cases hsome
    · simp [hl]

/-- A registry entry whose concrete class is the sample worker class. -/
def exMD : ComponentMD := ⟨some (ConcreteEntry.cls exTaskCls)⟩

/-- A container whose locator knows exactly the sample worker class. -/
def exContainerReg : PicoContainerReg := ⟨some ⟨[exMD]⟩⟩

theorem register_tasks_registers_all_witness :
    (⟨"sample.task", [], "TaskService", "multiply"⟩ : RegCall) ∈
      (register_tasks exContainerReg exApp0).regCalls ∧
    (lookupTask (register_tasks exContainerReg exApp0).tasks "sample.task").isSome = true :=
  register_tasks_registers_all exContainerReg exApp0 ⟨[exMD]⟩ exMD exTaskCls "multiply"
    { exMultiplyFn with taskMeta := some ⟨"sample.task", []⟩ } "sample.task" [] rfl
    (List.Mem.head _) rfl (List.Mem.head _) rfl

/-- C7: the registrar never fails in degraded mode: a missing locator means
it returns the application unchanged, and a registry entry whose concrete
type is not a class is skipped — the run is identical to one without that
entry, so nothing is registered for it and the remaining entries are still
processed. -/
theorem register_tasks_tolerates_degraded (app : CeleryAppState)
    (loc1 loc2 : List ComponentMD) (bad : ComponentMD)
    (hbad : isClassEntry bad = false) :
    register_tasks ⟨none⟩ app = app ∧
    register_tasks ⟨some ⟨loc1 ++ bad :: loc2⟩⟩ app =
      register_tasks ⟨some ⟨loc1 ++ loc2⟩⟩ app := by
  have hstep : ∀ a : CeleryAppState,
      (match bad.concrete_class with
       | some (ConcreteEntry.cls component_cls) => registerClassTasks component_cls a
       | _ => a) = a := by
    intro a
    cases hc : bad.concrete_class with
    | none => simp [hc]
    | some ce =>
      cases ce with
      | cls c => simp [isClassEntry, hc] at hbad
      | notClass v => simp [hc]
  refine ⟨rfl, ?_⟩
  show (loc1 ++ bad :: loc2).foldl _ app = (loc1 ++ loc2).foldl _ app
  rw [List.foldl_append, List.foldl_append, List.foldl_cons]
  congr 1
  exact hstep _

/-- A malformed registry entry whose concrete type is not a class. -/
def exBadMD : ComponentMD := ⟨some (ConcreteEntry.notClass Val.none)⟩

theorem register_tasks_tolerates_degraded_witness :
    register_tasks ⟨none⟩ exApp0 = exApp0 ∧
    register_tasks ⟨some ⟨[exBadMD]⟩⟩ exApp0 =
      register_tasks ⟨some ⟨[]⟩⟩ exApp0 :=
  register_tasks_tolerates_degraded exApp0 [] [] exBadMD rfl

/-- C10: the registrar performs no uniqueness check on task names: it
issues exactly one registration call per discovered (class, method) pair,
appending them all to the registration log without raising, and the task
table afterwards maps each name to the entry of the LAST registration call
declaring it — a duplicate name silently overwrites the earlier entry. -/
theorem register_tasks_duplicate_names (cont : PicoContainerReg) (app : CeleryAppState) :
    (register_tasks cont app).regCalls = app.regCalls ++ discoveredCalls cont ∧
    ∀ n, lookupTask (register_tasks cont app).tasks n =
      match lastNamed n (discoveredCalls cont) with
      | some c => some c
      | none => lookupTask app.tasks n := by
  refine ⟨?_, fun n => ?_⟩
  · rw [register_tasks_eq, applyCalls_regCalls]
  · rw [register_tasks_eq, applyCalls_lookupTask]
